import Mathlib

/-!
Verification of the clusterpedia reflector and internal storage layer.

The definitions below are a shallow embedding of the Go sources:
  pkg/runtime/informer/reflector.go
  pkg/storage/internalstorage/types.go
  pkg/storage/internalstorage/resource_storage.go
Pure functions become Lean functions, the stateful reflector list phase
becomes explicit state passing, fallible operations return Except, and
Go panics are modelled as Except.error.  Functions of this repository
that are referenced by the sources but live outside the provided files
are modelled from the specification and say so in their doc comment.
-/

namespace Clusterpedia

/-! ## Reflector state (reflector.go)

The fields of the Go Reflector struct that the list phase reads and
writes.  Concurrency (mutex guarding) is not modelled; the list phase
runs in a single task.
-/

/-- Outcome of one invocation of the pager (pager.List / listWithResultStream):
either a successful list carrying the list resourceVersion and whether the
result was paginated, or an error.  An error is either one recognized by
isExpiredError / isTooLargeResourceVersionError, or any other error. -/
inductive PagerOutcome where
  | success (rv : String) (paginated : Bool)
  | expired
  | failure
deriving DecidableEq

/-- The mutable reflector fields used by list and relistResourceVersion. -/
structure ReflectorState where
  lastSyncResourceVersion : String
  isLastSyncResourceVersionUnavailable : Bool
  paginatedResult : Bool
  forcePaginatedList : Bool
deriving DecidableEq

/-- reflector.go relistResourceVersion: the resource version a (re)list
starts from. -/
def relistResourceVersion (r : ReflectorState) : String :=
  if r.isLastSyncResourceVersionUnavailable then
    ""
  else if r.lastSyncResourceVersion = "" then
    -- ForcePaginatedList skips the watch-cache friendly "0"
    (if r.forcePaginatedList then "" else "0")
  else
    r.lastSyncResourceVersion

/-- The pager outcome the list phase ends with: the first call result,
except that an expired first call is replaced by the immediate retry. -/
def finalOutcome (first second : PagerOutcome) : PagerOutcome :=
  match first with
  | .expired => second
  | o => o

/-- Result of one run of Reflector.list: the updated reflector state, the
resource versions the pager was asked to list from (in order), and whether
list returned an error. -/
structure ListStepResult where
  state : ReflectorState
  requestedRVs : List String
  err : Bool
deriving DecidableEq

/-- reflector.go Reflector.list, as a state transition.  `first` is the
outcome of the first pager call and `second` the outcome of the retry
performed when the first call failed with an expired / too-large
resource version error.  Store replacement (syncWith) is assumed to
succeed; the stop channel path is not modelled. -/
def reflectorListStep (r : ReflectorState) (first second : PagerOutcome) :
    ListStepResult :=
  let rv0 := relistResourceVersion r
  let step1 : ReflectorState × List String × PagerOutcome :=
    match first with
    | .expired =>
        -- setIsLastSyncResourceVersionUnavailable(true), then retry once
        -- with freshly computed options (the flag makes it "").
        let r1 : ReflectorState :=
          { r with isLastSyncResourceVersionUnavailable := true }
        (r1, [rv0, relistResourceVersion r1], second)
    | o => (r, [rv0], o)
  match step1 with
  | (r1, rvs, outcome) =>
    match outcome with
    | .success listRV paginated =>
        -- the paginated check reads the OUTER options variable, i.e. rv0,
        -- even when the success came from the shadowed retry options
        let r2 := if rv0 == "0" && paginated then
            { r1 with paginatedResult := true }
          else r1
        let r3 := { r2 with isLastSyncResourceVersionUnavailable := false }
        { state := { r3 with lastSyncResourceVersion := listRV },
          requestedRVs := rvs, err := false }
    | _ => { state := r1, requestedRVs := rvs, err := true }

/-- Whether a pager outcome is a successful paginated list. -/
def isPaginatedSuccess : PagerOutcome → Bool
  | .success _ true => true
  | _ => false

/-! ## Row schema and API object model (types.go, resource_storage.go)

The codec configured on the storage encodes an API object to bytes and
decodes them back; the claims never inspect the byte syntax of the main
object column, so the encoding is modelled as the identity: the object
column holds the KObject itself.  JSON map columns (events,
event_resource_versions) are association lists, with `none` standing for
the Go nil map / SQL NULL.
-/

/-- An owner reference of an object (metav1.OwnerReference restricted to
the fields the sources read). -/
structure OwnerRef where
  uid : String
  controller : Bool
deriving DecidableEq

/-- The object metadata fields the sources read (metav1.ObjectMeta). -/
structure KMetadata where
  name : String
  namespace_ : String
  uid : String
  resourceVersion : String
  creationTimestamp : Int
  deletionTimestamp : Option Int
  annos : List (String × String)
  ownerRefs : List OwnerRef
deriving DecidableEq

/-- An API object: group-version-kind plus metadata. -/
structure KObject where
  apiVersion : String
  kind : String
  metadata : KMetadata
deriving DecidableEq

/-- metav1.GetControllerOfNoCopy: the first owner reference whose
controller flag is set. -/
def getControllerOf (m : KMetadata) : Option String :=
  (m.ownerRefs.find? (·.controller)).map (·.uid)

/-- An event (corev1.Event restricted to what the claims need); the
events JSON map column stores encoded events keyed by event UID. -/
structure KEvent where
  uid : String
  message : String
deriving DecidableEq

/-- types.go ResourceType. -/
structure ResourceType where
  group : String
  version : String
  resource : String
  kind : String
deriving DecidableEq

/-- types.go ResourceType.Empty. -/
def ResourceType.isEmptyType (rt : ResourceType) : Bool :=
  rt == ⟨"", "", "", ""⟩

/-- types.go Resource: one row of the wide table.  `none` in a JSON map
column is the Go nil map, stored as SQL NULL. -/
structure ResourceRow where
  group : String
  version : String
  resource : String
  kind : String
  cluster : String
  namespace_ : String
  name : String
  ownerUID : String
  uid : String
  resourceVersion : String
  object : KObject
  events : Option (List (String × KEvent))
  eventResourceVersions : Option (List (String × String))
  createdAt : Int
  syncedAt : Int
  deletedAt : Option Int
deriving DecidableEq

/-- resource_storage.go resourceKeyMap: whether a row matches the
(cluster, group, version, resource, namespace, name) key of a storage
bound to `rt`. -/
def rowKeyMatches (row : ResourceRow) (rt : ResourceType) (cluster ns name : String) : Bool :=
  row.cluster == cluster && row.group == rt.group && row.version == rt.version
    && row.resource == rt.resource && row.namespace_ == ns && row.name == name

/-- resource_storage.go Create: the row inserted for an object.  The Go
struct literal leaves Events and EventResourceVersions at their zero
value, i.e. nil maps.  `now` is the wall clock filled into the
auto-updated synced_at column. -/
def createResourceRow (rt : ResourceType) (cluster : String) (obj : KObject) (now : Int) :
    ResourceRow :=
  { group := rt.group
    version := rt.version
    resource := rt.resource
    kind := obj.kind
    cluster := cluster
    namespace_ := obj.metadata.namespace_
    name := obj.metadata.name
    ownerUID := (match getControllerOf obj.metadata with
      | some u => u
      | none => "")
    uid := obj.metadata.uid
    resourceVersion := obj.metadata.resourceVersion
    object := obj
    events := none
    eventResourceVersions := none
    createdAt := obj.metadata.creationTimestamp
    syncedAt := now
    deletedAt := obj.metadata.deletionTimestamp }

/-- resource_storage.go Update: the column map written to the matched
row.  owner_uid, uid, resource_version, object and created_at are always
in the map; deleted_at is added only when the object carries a
deletionTimestamp.  synced_at is auto-updated by the ORM. -/
def updateRowColumns (row : ResourceRow) (obj : KObject) (now : Int) : ResourceRow :=
  let updated :=
    { row with
        ownerUID := (match getControllerOf obj.metadata with
          | some u => u
          | none => "")
        uid := obj.metadata.uid
        resourceVersion := obj.metadata.resourceVersion
        object := obj
        createdAt := obj.metadata.creationTimestamp
        syncedAt := now }
  match obj.metadata.deletionTimestamp with
  | some t => { updated with deletedAt := some t }
  | none => updated

/-- resource_storage.go Update applied to a table: every row matching
the (cluster, natural key) of the object gets the column map. -/
def updateStorage (db : List ResourceRow) (rt : ResourceType) (cluster : String)
    (obj : KObject) (now : Int) : List ResourceRow :=
  db.map fun row =>
    if rowKeyMatches row rt cluster obj.metadata.namespace_ obj.metadata.name then
      updateRowColumns row obj now
    else row

/-! ## JSON map columns (types.go JSONMap) -/

/-- The value handed to the SQL layer for a JSON column: either the SQL
NULL expression or a JSON text. -/
inductive SQLJSONValue where
  | nullExpr
  | jsonVal (s : String)
deriving DecidableEq

/-- datatypes.JSONMap MarshalJSON: a nil map marshals to the JSON text
null, any other map to a JSON object.  Map values are modelled as the
already-encoded value text. -/
def jsonMapMarshal (m : Option (List (String × String))) : String :=
  match m with
  | none => "null"
  | some l =>
      "\x7b" ++ String.intercalate ","
        (l.map fun p => "\"" ++ p.1 ++ "\":" ++ p.2) ++ "\x7d"

/-- types.go JSONMap.GormValue: a nil map becomes the SQL NULL
expression; any other map is passed to the underlying datatypes
implementation, which marshals it. -/
def jsonMapGormValue (m : Option (List (String × String))) : SQLJSONValue :=
  match m with
  | none => .nullExpr
  | some l => .jsonVal (jsonMapMarshal (some l))

/-- Whether a stored column value is the JSON text null (the value the
GormValue override exists to prevent). -/
def storesLiteralNullText : SQLJSONValue → Bool
  | .nullExpr => false
  | .jsonVal s => s == "null"

/-! ## Backend-specific metadata projection (types.go From methods) -/

/-- The JSON path expression used by SQLite and MySQL, object->>'$.metadata'
(apostrophes written as hex escapes). -/
def dollarMetadataPath : String := "object->>\x27$.metadata\x27 as metadata"

/-- The JSON path expression used by PostgreSQL, object->>'metadata'. -/
def plainMetadataPath : String := "object->>\x27metadata\x27 as metadata"

/-- types.go ResourceMetadataList.From, select clause: the columns
projected for a metadata-only list, by backend dialect.  The Go default
branch panics with this message; the panic is modelled as an error
result. -/
def resourceMetadataSelectColumns (dialect : String) : Except String String :=
  if dialect = "sqlite" ∨ dialect = "sqlite3" ∨ dialect = "mysql" then
    .ok ("\x60group\x60, version, resource, kind, " ++ dollarMetadataPath)
  else if dialect = "postgres" then
    .ok ("\"group\", version, resource, kind, " ++ plainMetadataPath)
  else
    .error "storage: only support sqlite3, mysql or postgres"

/-- types.go ResourceMetadataWithEventsList.From, select clause: same
dialect switch, with the events column appended. -/
def resourceMetadataWithEventsSelectColumns (dialect : String) : Except String String :=
  if dialect = "sqlite" ∨ dialect = "sqlite3" ∨ dialect = "mysql" then
    .ok ("\x60group\x60, version, resource, kind, " ++ dollarMetadataPath ++ ", events")
  else if dialect = "postgres" then
    .ok ("\"group\", version, resource, kind, " ++ plainMetadataPath ++ ", events")
  else
    .error "storage: only support sqlite3, mysql or postgres"

/-- Whether a select-clause result succeeded and its clause contains the
given JSON path expression. -/
def selectUsesPath (r : Except String String) (path : String) : Bool :=
  match r with
  | .ok c => decide (path.data <:+: c.data)
  | .error _ => false

/-! ## List options and query translation (resource_storage.go) -/

/-- internal.ListOptions restricted to the fields the sources read. -/
structure ListOptions where
  clusterNames : List String := []
  namespaces : List String := []
  names : List String := []
  fuzzyNames : List String := []
  ownerUID : String := ""
  ownerName : String := ""
  ownerGroupResource : String × String := ("", "")
  ownerSeniority : Nat := 0
  onlyMetadata : Bool := false
  injectEvents : Bool := false
  withContinue : Option Bool := none
  withRemainingCount : Option Bool := none
  limit : Int := 0
  continueToken : String := ""
deriving DecidableEq

/-- An owner sub-select, resolving the UID set of the transitive owners. -/
inductive OwnerSub where
  | byUID (cluster uid : String) (seniority : Nat)
  | byName (cluster : String) (namespaces : List String)
      (groupResource : String × String) (name : String) (seniority : Nat)
deriving DecidableEq

/-- One WHERE condition of a generated query. -/
inductive Cond where
  | gvrEq (group version resource : String)
  | clusterIn (clusters : List String)
  | namespaceIn (namespaces : List String)
  | nameIn (names : List String)
  | fuzzyName (pats : List String)
  | ownerUIDEq (uid : String)
  | ownerUIDIn (sub : OwnerSub)
deriving DecidableEq

/-- A generated query: the ordered conjunction of its conditions. -/
abbrev Query := List Cond

/-- Modelled from the spec: buildOwnerQueryByUID is defined outside the
provided sources.  Per section 4.E the owner lookup is iterated
seniority times; with seniority 0 the given owner UID itself is the
result, which the caller detects as a plain string. -/
def buildOwnerQueryByUID (cluster uid : String) (seniority : Nat) :
    Sum String OwnerSub :=
  if seniority = 0 then .inl uid else .inr (.byUID cluster uid seniority)

/-- Modelled from the spec: buildOwnerQueryByName is defined outside the
provided sources; it resolves the UIDs of the named owner restricted to
the given namespaces, iterated seniority times, always as a sub-select. -/
def buildOwnerQueryByName (cluster : String) (namespaces : List String)
    (groupResource : String × String) (name : String) (seniority : Nat) :
    Sum String OwnerSub :=
  .inr (.byName cluster namespaces groupResource name seniority)

/-- resource_storage.go applyOwnerToResourceQuery: owner options are
applied only when exactly one cluster is requested; a plain-string owner
query becomes owner_uid equality, any other an owner_uid IN sub-select. -/
def applyOwnerToResourceQuery (q : Query) (opts : ListOptions) : Query :=
  if opts.clusterNames.length ≠ 1 then
    q
  else if opts.ownerUID ≠ "" then
    match buildOwnerQueryByUID (opts.clusterNames.headD "") opts.ownerUID
        opts.ownerSeniority with
    | .inl uid => q ++ [Cond.ownerUIDEq uid]
    | .inr sub => q ++ [Cond.ownerUIDIn sub]
  else if opts.ownerName ≠ "" then
    let ownerNamespaces :=
      if opts.namespaces.length ≠ 0 then opts.namespaces ++ [""] else []
    match buildOwnerQueryByName (opts.clusterNames.headD "") ownerNamespaces
        opts.ownerGroupResource opts.ownerName opts.ownerSeniority with
    | .inl uid => q ++ [Cond.ownerUIDEq uid]
    | .inr sub => q ++ [Cond.ownerUIDIn sub]
  else
    q

/-- Modelled from the spec: applyListOptionsToQuery is defined outside
the provided sources.  Per section 4.E it compiles the cluster,
namespace, name and fuzzy-name filters (none of which read the owner
options) and invokes the supplied applyFn for the storage-specific
conditions. -/
def applyListOptionsToQuery (q : Query) (opts : ListOptions)
    (applyFn : Query → ListOptions → Query) : Query :=
  let q := if opts.clusterNames.isEmpty then q else q ++ [Cond.clusterIn opts.clusterNames]
  let q := if opts.namespaces.isEmpty then q else q ++ [Cond.namespaceIn opts.namespaces]
  let q := if opts.names.isEmpty then q else q ++ [Cond.nameIn opts.names]
  let q := if opts.fuzzyNames.isEmpty then q else q ++ [Cond.fuzzyName opts.fuzzyNames]
  applyFn q opts

/-- resource_storage.go genListObjectsQuery, WHERE-clause part: the
gvr key conditions followed by the translated list options. -/
def genResourceQuery (rt : ResourceType) (opts : ListOptions) : Query :=
  applyListOptionsToQuery [Cond.gvrEq rt.group rt.version rt.resource] opts
    applyOwnerToResourceQuery

/-- The same options with the four owner options absent (zero values). -/
def clearOwnerOptions (opts : ListOptions) : ListOptions :=
  { opts with
      ownerUID := ""
      ownerName := ""
      ownerGroupResource := ("", "")
      ownerSeniority := 0 }

/-! ## Continue token and remaining count (resource_storage.go List) -/

/-- The list-metadata fields List writes (meta.ListAccessor). -/
structure ListMeta where
  continueToken : Option String
  remainingItemCount : Option Int
deriving DecidableEq

/-- resource_storage.go List, lines setting Continue and
RemainingItemCount: when WithContinue is requested and the page length
equals Limit the Continue token becomes the decimal text of
offset+limit; when the translator produced a total amount the remaining
count becomes amount - offset - page length. -/
def setListContinueAndRemain (withContinue : Option Bool) (limit offset : Int)
    (amount : Option Int) (numObjects : Nat) (lm : ListMeta) : ListMeta :=
  let lm :=
    if withContinue = some true ∧ (numObjects : Int) = limit then
      { lm with continueToken := some (toString (offset + limit)) }
    else lm
  match amount with
  | some a => { lm with remainingItemCount := some (a - offset - (numObjects : Int)) }
  | none => lm

/-! ## List materialization (resource_storage.go List, types.go) -/

/-- The shared-constant key under which List attaches decoded events
(internal.ShadowAnnotationEvents, defined outside the provided sources;
its exact value is immaterial, it is used as an abstract shared key). -/
def shadowAnnoEvents : String := "shadow.clusterpedia.io/events"

/-- Look a key up in an object annos map. -/
def lookupAnno (annos : List (String × String)) (key : String) : Option String :=
  (annos.find? (fun p => p.1 == key)).map (·.2)

/-- Set a key in an object annos map, overwriting an existing entry. -/
def setAnno (annos : List (String × String)) (key val : String) : List (String × String) :=
  if (annos.find? (fun p => p.1 == key)).isSome then
    annos.map (fun p => if p.1 == key then (key, val) else p)
  else
    annos ++ [(key, val)]

/-- json.Marshal of one event. -/
def encodeEvent (e : KEvent) : String :=
  "\x7b\"uid\":\"" ++ e.uid ++ "\",\"message\":\"" ++ e.message ++ "\"\x7d"

/-- json.Marshal of an event list: a JSON array of the encoded events. -/
def encodeEventList (es : List KEvent) : String :=
  "[" ++ String.intercalate "," (es.map encodeEvent) ++ "]"

/-- The closed variant of row projections produced by genListObjectsQuery
(types.go): full object bytes, bytes plus the events column, or the
metadata columns.  Both metadata projections scan into the Go struct
ResourceMetadata, which has no events field, so the variant carries no
events. -/
inductive ProjectedItem where
  | bytes (object : KObject)
  | bytesWithEvents (object : KObject) (events : Option (List (String × KEvent)))
  | metadata (rt : ResourceType) (meta : KMetadata)
deriving DecidableEq

/-- The scan target of the two metadata list types: the Go struct
ResourceMetadata (embedded ResourceType plus the metadata JSON). -/
structure ResourceMetadataRow where
  rt : ResourceType
  metadata : KMetadata
deriving DecidableEq

/-- types.go ResourceMetadataList.From: select the metadata projection
(dialect dependent) and scan each row into ResourceMetadata. -/
def resourceMetadataListFrom (dialect : String) (rows : List ResourceRow) :
    Except String (List ResourceMetadataRow) :=
  match resourceMetadataSelectColumns dialect with
  | .error e => .error e
  | .ok _ => .ok (rows.map fun r => ⟨⟨r.group, r.version, r.resource, r.kind⟩, r.object.metadata⟩)

/-- types.go ResourceMetadataWithEventsList.From: the select clause also
names the events column, but the Go slice element type is
ResourceMetadata, which has no events field - the scanned events column
has no destination and is dropped. -/
def resourceMetadataWithEventsListFrom (dialect : String) (rows : List ResourceRow) :
    Except String (List ResourceMetadataRow) :=
  match resourceMetadataWithEventsSelectColumns dialect with
  | .error e => .error e
  | .ok _ => .ok (rows.map fun r => ⟨⟨r.group, r.version, r.resource, r.kind⟩, r.object.metadata⟩)

/-- resource_storage.go genListObjectsQuery: choose the projection by
(OnlyMetadata, InjectEvents) and run the matching From.  `rows` is the
set of rows matching the translated query. -/
def genListObjects (dialect : String) (opts : ListOptions) (rows : List ResourceRow) :
    Except String (List ProjectedItem) :=
  if opts.onlyMetadata && opts.injectEvents then
    (resourceMetadataWithEventsListFrom dialect rows).map
      (List.map fun m => .metadata m.rt m.metadata)
  else if opts.onlyMetadata then
    (resourceMetadataListFrom dialect rows).map
      (List.map fun m => .metadata m.rt m.metadata)
  else if opts.injectEvents then
    -- BytesWithEventsList.From: select object, events
    .ok (rows.map fun r => .bytesWithEvents r.object r.events)
  else
    -- BytesList.From: select object
    .ok (rows.map fun r => .bytes r.object)

/-- The GetEvents capability of each variant: Bytes and ResourceMetadata
return nil; BytesWithEvents decodes the events JSON map into the list of
its values (a NULL column fails to decode and also yields nil). -/
def itemGetEvents : ProjectedItem → Option (List KEvent)
  | .bytesWithEvents _ (some es) => some (es.map (·.2))
  | .bytesWithEvents _ none => none
  | _ => none

/-- The GetResourceType capability: only the metadata variants carry a
resource type; the bytes variants return the empty ResourceType. -/
def itemResourceType : ProjectedItem → ResourceType
  | .metadata rt _ => rt
  | _ => ⟨"", "", "", ""⟩

/-- ConvertTo with a fresh typed (non-unstructured) target: bytes decode
to the stored object; the metadata variant sets ObjectMeta on the fresh
target, whose TypeMeta stays empty. -/
def convertToTypedTarget : ProjectedItem → KObject
  | .bytes o => o
  | .bytesWithEvents o _ => o
  | .metadata _ m => ⟨"", "", m⟩

/-- ConvertTo with a fresh *unstructured.Unstructured target: bytes
decode to the stored object; the metadata variant sets only the metadata
key on the fresh unstructured object. -/
def convertToUnstructuredTarget : ProjectedItem → KObject
  | .bytes o => o
  | .bytesWithEvents o _ => o
  | .metadata _ m => ⟨"", "", m⟩

/-- List lines 308-320: when GetEvents is non-nil, marshal the events and
set them under the shared key in the object annos map. -/
def injectShadowEvents (obj : KObject) (events : Option (List KEvent)) : KObject :=
  match events with
  | none => obj
  | some es =>
      { obj with metadata :=
          { obj.metadata with
              annos := setAnno obj.metadata.annos shadowAnnoEvents (encodeEventList es) } }

/-- List, typed materialization path (lines 291-324): convert each
projected item into a fresh typed object and attach the decoded events
when present. -/
def materializeTyped (items : List ProjectedItem) : List KObject :=
  items.map fun it => injectShadowEvents (convertToTypedTarget it) (itemGetEvents it)

/-- metav1.GroupVersionKind().Empty() on the converted object. -/
def gvkEmpty (o : KObject) : Bool :=
  o.apiVersion == "" && o.kind == ""

/-- List, unstructured materialization path (lines 263-289): convert each
projected item into a fresh unstructured object, fill an empty GVK from
the list apiVersion and the row resource type, and perform no events
injection. -/
def materializeUnstructured (listAPIVersion : String) (items : List ProjectedItem) :
    List KObject :=
  items.map fun it =>
    let o := convertToUnstructuredTarget it
    if gvkEmpty o then
      let o := if listAPIVersion ≠ "" then { o with apiVersion := listAPIVersion } else o
      let o := if !(itemResourceType it).isEmptyType then
          { o with kind := (itemResourceType it).kind }
        else o
      o
    else o

/-- resource_storage.go List with a typed (non-unstructured) target list. -/
def listTyped (dialect : String) (opts : ListOptions) (rows : List ResourceRow) :
    Except String (List KObject) :=
  (genListObjects dialect opts rows).map materializeTyped

/-- resource_storage.go List with an *unstructured.UnstructuredList
target carrying the given apiVersion. -/
def listUnstructured (dialect listAPIVersion : String) (opts : ListOptions)
    (rows : List ResourceRow) : Except String (List KObject) :=
  (genListObjects dialect opts rows).map (materializeUnstructured listAPIVersion)

deriving instance DecidableEq for Except

/-- One output object of the unstructured materialization path. -/
def unstructuredItem (listAPIVersion : String) (it : ProjectedItem) : KObject :=
  let o := convertToUnstructuredTarget it
  if gvkEmpty o then
    let o := if listAPIVersion ≠ "" then { o with apiVersion := listAPIVersion } else o
    let o := if !(itemResourceType it).isEmptyType then
        { o with kind := (itemResourceType it).kind }
      else o
    o
  else o

/-- A sample object without the shared events key, its event, and a row
carrying one event, used to exercise the two materialization paths. -/
def c10Meta : KMetadata := ⟨"pod-x", "ns", "u-x", "4", 0, none, [], []⟩

def c10Obj : KObject := ⟨"v1", "Pod", c10Meta⟩

def c10Event : KEvent := ⟨"e-uid", "scheduled"⟩

def c10Row : ResourceRow :=
  { group := "", version := "v1", resource := "pods", kind := "Pod",
    cluster := "c1", namespace_ := "ns", name := "pod-x",
    ownerUID := "", uid := "u-x", resourceVersion := "4",
    object := c10Obj, events := some [("e-uid", c10Event)],
    eventResourceVersions := some [("ns/pod-x", "2")],
    createdAt := 0, syncedAt := 0, deletedAt := none }

/-- The C1 scenario: a metadata-plus-events List over one row whose
events JSON map holds exactly one event. -/
def c1Event : KEvent := ⟨"ev-1", "created"⟩

def c1Meta : KMetadata := ⟨"pod-1", "ns", "u1", "9", 0, none, [], []⟩

def c1Row : ResourceRow :=
  { group := "", version := "v1", resource := "pods", kind := "Pod",
    cluster := "c1", namespace_ := "ns", name := "pod-1",
    ownerUID := "", uid := "u1", resourceVersion := "9",
    object := ⟨"v1", "Pod", c1Meta⟩, events := some [("ev-1", c1Event)],
    eventResourceVersions := some [("ns/pod-1", "3")],
    createdAt := 0, syncedAt := 0, deletedAt := none }

def c1Opts : ListOptions := { onlyMetadata := true, injectEvents := true }

end Clusterpedia

open Clusterpedia

/-- C5: the resource version the reflector starts a (re)list from is the
empty string when isLastSyncResourceVersionUnavailable is set; the empty
string when no version was ever observed and forced pagination is enabled;
"0" when no version was ever observed otherwise; and the last-seen
resource version in every other case. -/
theorem relist_resource_version_cases (r : ReflectorState) :
    (r.isLastSyncResourceVersionUnavailable = true → relistResourceVersion r = "")
    ∧ (r.isLastSyncResourceVersionUnavailable = false →
        r.lastSyncResourceVersion = "" → r.forcePaginatedList = true →
        relistResourceVersion r = "")
    ∧ (r.isLastSyncResourceVersionUnavailable = false →
        r.lastSyncResourceVersion = "" → r.forcePaginatedList = false →
        relistResourceVersion r = "0")
    ∧ (r.isLastSyncResourceVersionUnavailable = false →
        r.lastSyncResourceVersion ≠ "" →
        relistResourceVersion r = r.lastSyncResourceVersion) := by
  refine ⟨?_, ?_, ?_, ?_⟩
  · intro h; simp [relistResourceVersion, h]
  · intro h h2 h3; simp [relistResourceVersion, h, h2, h3]
  · intro h h2 h3; simp [relistResourceVersion, h, h2, h3]
  · intro h h2; simp [relistResourceVersion, h, h2]

/-- Witness for relist_resource_version_cases: a concrete state with no
observed version and no forced pagination starts from "0". -/
theorem relist_resource_version_cases_witness :
    relistResourceVersion ⟨"", false, false, false⟩ = "0" :=
  (relist_resource_version_cases ⟨"", false, false, false⟩).2.2.1 rfl rfl rfl

/-- C3 counterexample: a list phase that starts from lastRV "5" and fails
with an expired error does NOT clear lastSyncResourceVersion - the field
keeps its value "5" (only the unavailable flag is set), and even when the
immediate retry succeeds the field is set to the new list resource version
"12", never to the empty string. -/
theorem expired_list_does_not_clear_last_rv :
    (reflectorListStep ⟨"5", false, false, false⟩ .expired .failure).state.lastSyncResourceVersion = "5"
    ∧ (reflectorListStep ⟨"5", false, false, false⟩ .expired .failure).state.isLastSyncResourceVersionUnavailable = true
    ∧ (reflectorListStep ⟨"5", false, false, false⟩ .expired
        (.success "12" false)).state.lastSyncResourceVersion = "12" := by
  decide

/-- C3 amended: when the list fails with an expired or too-large-resource-
version error the reflector sets isLastSyncResourceVersionUnavailable to
true while leaving lastSyncResourceVersion itself unchanged, and
immediately retries exactly once; the retry starts from the empty resource
version because the flag is set.  Every successful list resets the flag to
false. -/
theorem expired_list_sets_flag_and_retries_once
    (r : ReflectorState) (first second : PagerOutcome) :
    (reflectorListStep r .expired second).requestedRVs = [relistResourceVersion r, ""]
    ∧ (reflectorListStep r .expired .failure).state =
        { r with isLastSyncResourceVersionUnavailable := true }
    ∧ ((reflectorListStep r first second).err = false →
        (reflectorListStep r first second).state.isLastSyncResourceVersionUnavailable = false) := by
  refine ⟨?_, ?_, ?_⟩
  · cases second <;>
      simp [reflectorListStep, relistResourceVersion] <;>
      split <;> simp_all
  · simp [reflectorListStep]
  · intro h
    cases first <;> cases second <;>
      simp [reflectorListStep] at h ⊢ <;>
      split <;> simp_all

/-- Witness for expired_list_sets_flag_and_retries_once at a concrete
state: the expired list starting from lastRV "5" requests exactly ["5", ""]
and a successful (non-retried) list clears the unavailable flag. -/
theorem expired_list_sets_flag_and_retries_once_witness :
    (reflectorListStep ⟨"5", false, false, false⟩ .expired .failure).requestedRVs = ["5", ""]
    ∧ (reflectorListStep ⟨"5", true, false, false⟩ (.success "7" false)
        .failure).state.isLastSyncResourceVersionUnavailable = false := by
  constructor
  · have h := (expired_list_sets_flag_and_retries_once
      ⟨"5", false, false, false⟩ (.success "7" false) .failure).1
    simpa using h
  · exact (expired_list_sets_flag_and_retries_once
      ⟨"5", true, false, false⟩ (.success "7" false) .failure).2.2 (by decide)

/-- C4 counterexample: starting from the fresh state the chosen start
resource version is "0"; that first request fails expired (returning no
result at all), and the once-retried request - whose start resource
version is "" - returns a paginated result.  The code still sets
paginatedResult to true, so a list performed with start resource version
"" (not "0") set the flag. -/
theorem retry_paginated_sets_flag_counterexample :
    (reflectorListStep ⟨"", false, false, false⟩ .expired
        (.success "10" true)).requestedRVs = ["0", ""]
    ∧ (reflectorListStep ⟨"", false, false, false⟩ .expired
        (.success "10" true)).state.paginatedResult = true := by
  decide

/-- C4 amended: paginatedResult becomes true exactly when a list phase
whose initially chosen start resource version was "0" ends in a successful
paginated result - including when that success comes from the immediate
retry performed at resource version "" after an expired error; a phase
whose initially chosen start version is not "0" never sets it, and no list
ever resets it to false. -/
theorem paginated_result_update (r : ReflectorState) (first second : PagerOutcome) :
    (reflectorListStep r first second).state.paginatedResult =
      (r.paginatedResult
        || (relistResourceVersion r == "0"
            && isPaginatedSuccess (finalOutcome first second))) := by
  cases first <;> cases second <;>
    simp only [reflectorListStep, finalOutcome, isPaginatedSuccess] <;>
    first
      | (rename_i p; cases p <;> split <;> simp_all)
      | (rename_i p q; cases p <;> cases q <;> split <;> simp_all)
      | simp [Bool.and_false, Bool.or_false]

/-- C2 counterexample: updating a row whose deleted_at column is set,
with an object whose deletionTimestamp is absent, leaves deleted_at at
its old value instead of overwriting it with the value derived from the
object (absent, i.e. NULL); the other columns of the same row are
overwritten (uid becomes the new "u-new"). -/
theorem update_does_not_overwrite_deleted_at :
    (let rt : ResourceType := ⟨"", "v1", "pods", "Pod"⟩
     let oldRow : ResourceRow :=
       { group := "", version := "v1", resource := "pods", kind := "Pod",
         cluster := "c1", namespace_ := "ns", name := "p1",
         ownerUID := "", uid := "u-old", resourceVersion := "3",
         object := ⟨"v1", "Pod", ⟨"p1", "ns", "u-old", "3", 0, none, [], []⟩⟩,
         events := none, eventResourceVersions := none,
         createdAt := 0, syncedAt := 0, deletedAt := some 5 }
     let newObj : KObject := ⟨"v1", "Pod", ⟨"p1", "ns", "u-new", "9", 1, none, [], []⟩⟩
     (updateStorage [oldRow] rt "c1" newObj 7).map (fun r => (r.uid, r.deletedAt))
       = [("u-new", some 5)]
     ∧ newObj.metadata.deletionTimestamp = none) := by
  decide

/-- C2 amended: Update always overwrites owner_uid, uid,
resource_version, object and created_at of the matched row with the
values derived from the object; deleted_at is overwritten (with the
deletionTimestamp) only when the object carries a deletionTimestamp and
keeps its previous value otherwise.  Row identity columns are untouched. -/
theorem update_overwrites_columns (row : ResourceRow) (obj : KObject) (now : Int) :
    (updateRowColumns row obj now).ownerUID =
        (match getControllerOf obj.metadata with
          | some u => u
          | none => "")
    ∧ (updateRowColumns row obj now).uid = obj.metadata.uid
    ∧ (updateRowColumns row obj now).resourceVersion = obj.metadata.resourceVersion
    ∧ (updateRowColumns row obj now).object = obj
    ∧ (updateRowColumns row obj now).createdAt = obj.metadata.creationTimestamp
    ∧ (updateRowColumns row obj now).deletedAt =
        (match obj.metadata.deletionTimestamp with
          | some t => some t
          | none => row.deletedAt)
    ∧ (updateRowColumns row obj now).cluster = row.cluster
    ∧ (updateRowColumns row obj now).namespace_ = row.namespace_
    ∧ (updateRowColumns row obj now).name = row.name := by
  cases h : obj.metadata.deletionTimestamp <;>
    simp [updateRowColumns, h]

theorem brace_prefix_ne_null (t : String) : ("\x7b" ++ t) ≠ "null" := by
  intro h
  have hd : ("\x7b" ++ t).data = "null".data := by rw [h]
  simp only [String.data_append] at hd
  have : Char.ofNat 123 = Char.ofNat 110 := by
    have := congrArg (fun l => l.headD (Char.ofNat 0)) hd
    simpa using this
  simp [Char.ofNat] at this

/-- C8: a nil (empty) events or event_resource_versions map is handed to
the SQL layer as the NULL expression, and no map value whatsoever is ever
stored as the JSON text null; the rows written by Create carry nil maps
in both JSON columns. -/
theorem empty_json_map_stores_null (m : Option (List (String × String)))
    (rt : ResourceType) (cluster : String) (obj : KObject) (now : Int) :
    jsonMapGormValue none = SQLJSONValue.nullExpr
    ∧ storesLiteralNullText (jsonMapGormValue m) = false
    ∧ (createResourceRow rt cluster obj now).events = none
    ∧ (createResourceRow rt cluster obj now).eventResourceVersions = none := by
  refine ⟨rfl, ?_, rfl, rfl⟩
  cases m with
  | none => rfl
  | some l =>
      simp only [jsonMapGormValue, jsonMapMarshal, storesLiteralNullText]
      rw [String.append_assoc]
      exact beq_eq_false_iff_ne.mpr (brace_prefix_ne_null _)

/-- C9: the metadata projection of List uses object->>'$.metadata' when
the backend is SQLite (names sqlite and sqlite3) or MySQL, and
object->>'metadata' when it is PostgreSQL, in both the metadata-only and
the metadata-with-events variant; any other backend makes the call fail
with the configuration message (a Go panic, modelled as an error
result). -/
theorem metadata_projection_by_backend :
    (∀ d, d ∈ ["sqlite", "sqlite3", "mysql"] →
        selectUsesPath (resourceMetadataSelectColumns d) dollarMetadataPath = true
        ∧ selectUsesPath (resourceMetadataWithEventsSelectColumns d) dollarMetadataPath = true)
    ∧ (selectUsesPath (resourceMetadataSelectColumns "postgres") plainMetadataPath = true
        ∧ selectUsesPath (resourceMetadataWithEventsSelectColumns "postgres") plainMetadataPath = true)
    ∧ (∀ d, d ∉ ["sqlite", "sqlite3", "mysql", "postgres"] →
        resourceMetadataSelectColumns d =
          .error "storage: only support sqlite3, mysql or postgres"
        ∧ resourceMetadataWithEventsSelectColumns d =
          .error "storage: only support sqlite3, mysql or postgres") := by
  refine ⟨?_, by constructor <;> decide, ?_⟩
  · intro d hd
    simp only [List.mem_cons, List.not_mem_nil, or_false] at hd
    rcases hd with rfl | rfl | rfl <;> exact ⟨by decide, by decide⟩
  · intro d hd
    simp only [List.mem_cons, List.not_mem_nil, or_false, not_or] at hd
    obtain ⟨h1, h2, h3, h4⟩ := hd
    constructor <;>
      simp [resourceMetadataSelectColumns,
        resourceMetadataWithEventsSelectColumns, h1, h2, h3, h4]

/-- Witness for metadata_projection_by_backend: mysql uses the dollar
path in both variants and the backend oracle is rejected with the
configuration message. -/
theorem metadata_projection_by_backend_witness :
    selectUsesPath (resourceMetadataSelectColumns "mysql") dollarMetadataPath = true
    ∧ resourceMetadataWithEventsSelectColumns "oracle" =
        .error "storage: only support sqlite3, mysql or postgres" :=
  ⟨(metadata_projection_by_backend.1 "mysql" (by decide)).1,
   (metadata_projection_by_backend.2.2 "oracle" (by decide)).2⟩

/-- C6: when the requested cluster list does not have exactly one entry,
the owner options have no effect: the generated query equals the query
generated with the owner options absent. -/
theorem owner_options_ignored_without_single_cluster
    (rt : ResourceType) (opts : ListOptions)
    (h : opts.clusterNames.length ≠ 1) :
    genResourceQuery rt opts = genResourceQuery rt (clearOwnerOptions opts) := by
  have happly : ∀ q, applyOwnerToResourceQuery q opts = q := fun q => by
    simp [applyOwnerToResourceQuery, h]
  have happly2 : ∀ q, applyOwnerToResourceQuery q (clearOwnerOptions opts) = q := fun q => by
    simp [applyOwnerToResourceQuery, clearOwnerOptions, h]
  have hc : (clearOwnerOptions opts).clusterNames = opts.clusterNames := rfl
  have hn : (clearOwnerOptions opts).namespaces = opts.namespaces := rfl
  have hm : (clearOwnerOptions opts).names = opts.names := rfl
  have hf : (clearOwnerOptions opts).fuzzyNames = opts.fuzzyNames := rfl
  simp only [genResourceQuery, applyListOptionsToQuery, happly, happly2,
    hc, hn, hm, hf]

/-- Witness for owner_options_ignored_without_single_cluster: with two
clusters, an ownerUID filter and a seniority produce the same query as no
owner options at all. -/
theorem owner_options_ignored_without_single_cluster_witness :
    genResourceQuery ⟨"apps", "v1", "deployments", "Deployment"⟩
        { clusterNames := ["c1", "c2"], ownerUID := "u1", ownerSeniority := 1 } =
      genResourceQuery ⟨"apps", "v1", "deployments", "Deployment"⟩
        (clearOwnerOptions
          { clusterNames := ["c1", "c2"], ownerUID := "u1", ownerSeniority := 1 }) :=
  owner_options_ignored_without_single_cluster _ _ (by decide)

/-- C7: whenever the translator returned a total amount the remaining
item count is exactly amount - offset - page length, for every page -
full or not, paging requested or not - so it may be negative when the
offset points past the end; and when WithContinue is requested and the
page is full (length equal to Limit) the Continue token is the decimal
representation of offset+limit. -/
theorem continue_token_and_remaining_count (withContinue : Option Bool)
    (limit offset : Int) (amount : Option Int) (numObjects : Nat) (lm : ListMeta) :
    (withContinue = some true → (numObjects : Int) = limit →
      (setListContinueAndRemain withContinue limit offset amount numObjects lm).continueToken
        = some (toString (offset + limit)))
    ∧ (∀ a, amount = some a →
        (setListContinueAndRemain withContinue limit offset amount numObjects
            lm).remainingItemCount = some (a - offset - (numObjects : Int))) := by
  constructor
  · intro hwc hfull
    subst hwc
    cases amount <;> simp [setListContinueAndRemain, hfull]
  · intro a ha
    subst ha
    rfl

/-- Witness for continue_token_and_remaining_count: with limit 3, offset
10 and amount 5, an empty (non-full) page still gets the remaining count
5 - 10 - 0 = -5, a negative value; a full page of 3 gets Continue "13". -/
theorem continue_token_and_remaining_count_witness :
    (setListContinueAndRemain (some true) 3 10 (some 5) 0
        ⟨none, none⟩).remainingItemCount = some (-5)
    ∧ (-5 : Int) < 0
    ∧ (setListContinueAndRemain (some true) 3 10 (some 5) 3
        ⟨none, none⟩).continueToken = some "13" := by
  refine ⟨?_, by decide, ?_⟩
  · have h := (continue_token_and_remaining_count (some true) 3 10 (some 5) 0
      ⟨none, none⟩).2 5 rfl
    rw [h]
    norm_num
  · have h := (continue_token_and_remaining_count (some true) 3 10 (some 5) 3
      ⟨none, none⟩).1 rfl (by decide)
    rw [h]
    decide

theorem materializeUnstructured_eq_map (listAPIVersion : String)
    (items : List ProjectedItem) :
    materializeUnstructured listAPIVersion items = items.map (unstructuredItem listAPIVersion) := by
  rfl

theorem unstructuredItem_meta (listAPIVersion : String) (it : ProjectedItem) :
    (unstructuredItem listAPIVersion it).metadata = (convertToUnstructuredTarget it).metadata := by
  unfold unstructuredItem
  dsimp only
  split
  · split <;> split <;> rfl
  · rfl

theorem genListObjects_item_from_row (dialect : String) (opts : ListOptions)
    (rows : List ResourceRow) (items : List ProjectedItem)
    (h : genListObjects dialect opts rows = .ok items) :
    ∀ it ∈ items, ∃ r ∈ rows,
      (convertToUnstructuredTarget it).metadata.annos = r.object.metadata.annos := by
  intro it hit
  unfold genListObjects at h
  split at h
  · unfold resourceMetadataWithEventsListFrom at h
    cases hsel : resourceMetadataWithEventsSelectColumns dialect with
    | error e => rw [hsel] at h; simp [Except.map] at h
    | ok c =>
        rw [hsel] at h
        simp only [Except.map, Except.ok.injEq] at h
        subst h
        simp only [List.map_map, List.mem_map] at hit
        obtain ⟨r, hr, hrit⟩ := hit
        exact ⟨r, hr, by rw [← hrit]; rfl⟩
  · split at h
    · unfold resourceMetadataListFrom at h
      cases hsel : resourceMetadataSelectColumns dialect with
      | error e => rw [hsel] at h; simp [Except.map] at h
      | ok c =>
          rw [hsel] at h
          simp only [Except.map, Except.ok.injEq] at h
          subst h
          simp only [List.map_map, List.mem_map] at hit
          obtain ⟨r, hr, hrit⟩ := hit
          exact ⟨r, hr, by rw [← hrit]; rfl⟩
    · split at h <;>
        · simp only [Except.ok.injEq] at h
          subst h
          simp only [List.mem_map] at hit
          obtain ⟨r, hr, hrit⟩ := hit
          exact ⟨r, hr, by rw [← hrit]; rfl⟩

/-- C10: a List whose target is an unstructured list never attaches the
shared events key to the returned items - even when InjectEvents is true
and the rows carry events - provided the stored objects did not already
carry that key; the injection step runs only on the typed materialization
path, which does attach it for a bytes-with-events item. -/
theorem unstructured_list_never_injects_events
    (dialect listAPIVersion : String) (opts : ListOptions)
    (rows : List ResourceRow) (out : List KObject)
    (hok : listUnstructured dialect listAPIVersion opts rows = .ok out)
    (hclean : ∀ r ∈ rows, lookupAnno r.object.metadata.annos shadowAnnoEvents = none) :
    (∀ o ∈ out, lookupAnno o.metadata.annos shadowAnnoEvents = none)
    ∧ lookupAnno
        ((materializeTyped
            [ProjectedItem.bytesWithEvents c10Obj (some [("e-uid", c10Event)])]).headD
          c10Obj).metadata.annos shadowAnnoEvents
      = some (encodeEventList [c10Event]) := by
  refine ⟨?_, by decide⟩
  intro o ho
  unfold listUnstructured at hok
  cases hg : genListObjects dialect opts rows with
  | error e => rw [hg] at hok; simp [Except.map] at hok
  | ok items =>
      rw [hg] at hok
      simp only [Except.map, Except.ok.injEq] at hok
      subst hok
      rw [materializeUnstructured_eq_map] at ho
      simp only [List.mem_map] at ho
      obtain ⟨it, hit, hito⟩ := ho
      obtain ⟨r, hr, hann⟩ := genListObjects_item_from_row dialect opts rows items hg it hit
      rw [← hito, unstructuredItem_meta, hann]
      exact hclean r hr

/-- Witness for unstructured_list_never_injects_events: an unstructured
List with InjectEvents over one row carrying one event returns the stored
object unchanged and without the shared events key, while the typed path
attaches it. -/
theorem unstructured_list_never_injects_events_witness :
    (∀ o ∈ [c10Obj], lookupAnno o.metadata.annos shadowAnnoEvents = none)
    ∧ lookupAnno
        ((materializeTyped
            [ProjectedItem.bytesWithEvents c10Obj (some [("e-uid", c10Event)])]).headD
          c10Obj).metadata.annos shadowAnnoEvents
      = some (encodeEventList [c10Event]) :=
  unstructured_list_never_injects_events "postgres" "v1" { injectEvents := true }
    [c10Row] [c10Obj] (by decide) (by decide)

/-- C1 (evaluating the code at the failing input): a typed List with
OnlyMetadata and InjectEvents on one row whose events map holds exactly
one event returns an object whose metadata is populated from the row but
which does NOT carry the shared events key: the list variant for this
projection scans into the events-less ResourceMetadata struct, whose
GetEvents returns nil, so the injection step never fires. -/
theorem metadata_with_events_list_drops_events :
    c1Opts.onlyMetadata = true ∧ c1Opts.injectEvents = true
    ∧ c1Row.events = some [("ev-1", c1Event)]
    ∧ listTyped "sqlite3" c1Opts [c1Row] = .ok [⟨"", "", c1Meta⟩]
    ∧ c1Meta.name = "pod-1"
    ∧ lookupAnno c1Meta.annos shadowAnnoEvents = none := by
  decide
